import Mathlib

/-!
Shallow embedding of the lykin synchronization core (Rust) and proofs about
its specification claims.

Rust strings are modelled as lists of UTF-8 bytes (`RStr`), so byte-indexed
operations (`str::get`, `rfind`, slicing) keep their source semantics.
`u64` sequence numbers are modelled as `Nat` (no arithmetic that can
overflow is performed on them in the source), `i64` timestamps as `Int`.
The sled trees are modelled as association lists with upsert semantics;
bincode serialize/deserialize round-trips are modelled as the identity.
-/

namespace Lykin

/-- A Rust string / byte slice, as its list of UTF-8 bytes. -/
abbrev RStr := List Nat

/-- Golgi error values; only their presence matters to the core. -/
abbrev GolgiError := RStr

/-! ### Association-list model of a sled `Tree` (insert = upsert) -/

/-- Upsert into an association list: replace the binding in place if the key
is present, otherwise append at the end. -/
def insertKV {α : Type} (k : RStr) (v : α) : List (RStr × α) → List (RStr × α)
  | [] => [(k, v)]
  | (k₂, v₂) :: rest =>
    if k₂ = k then (k, v) :: rest else (k₂, v₂) :: insertKV k v rest

/-- Look up the first binding of a key in an association list. -/
def lookupKV {α : Type} (k : RStr) : List (RStr × α) → Option α
  | [] => none
  | (k₂, v₂) :: rest => if k₂ = k then some v₂ else lookupKV k rest

/-- Remove all bindings of a key from an association list
(mirrors `sled::Tree::remove`). -/
def removeKV {α : Type} (k : RStr) (t : List (RStr × α)) : List (RStr × α) :=
  t.filter (fun kv => kv.1 ≠ k)

/-! ### JSON values (`serde_json::value::Value`)

Numbers are restricted to integers; the message fields the core interprets
(`type`, `root`, `text`) are strings or absent in the source protocol, and
no claim depends on float formatting. -/

/-- `serde_json::value::Value`, with integer-only numbers. -/
inductive Value : Type where
  | vNull : Value
  | vBool : Bool → Value
  | vInt : Int → Value
  | vStr : RStr → Value
  | vArr : List Value → Value
  | vObj : List (RStr × Value) → Value

/-- Fuel-driven digit accumulation (`fuel ≥ n` suffices since `n / 10 < n`
for `n ≥ 10`). -/
def natDigitsGo (fuel : Nat) (n : Nat) : RStr :=
  match fuel with
  | 0 => []
  | fuel₂ + 1 =>
    if n < 10 then [48 + n] else natDigitsGo fuel₂ (n / 10) ++ [48 + n % 10]

/-- Decimal digits of a natural number, as ASCII bytes (big-endian). -/
def natDigits (n : Nat) : RStr := natDigitsGo (n + 1) n

/-- Decimal rendering of an integer, as ASCII bytes. -/
def intDigits (n : Int) : RStr :=
  if n < 0 then 45 :: natDigits n.natAbs else natDigits n.natAbs

/-- Lowercase hexadecimal digit, as an ASCII byte. -/
def hexDigit (n : Nat) : Nat :=
  if n < 10 then 48 + n else 87 + n

/-- `serde_json` escaping of one byte inside a JSON string: `"` and `\`
are backslash-escaped, the short control escapes are used for
`\b \t \n \f \r`, any other byte below 0x20 becomes `\u00xx`, and all
other bytes (including non-ASCII) pass through unchanged. -/
def escapeByte (b : Nat) : RStr :=
  if b = 34 then [92, 34]
  else if b = 92 then [92, 92]
  else if b = 8 then [92, 98]
  else if b = 9 then [92, 116]
  else if b = 10 then [92, 110]
  else if b = 12 then [92, 102]
  else if b = 13 then [92, 114]
  else if b < 32 then [92, 117, 48, 48, hexDigit (b / 16), hexDigit (b % 16)]
  else [b]

/-- `serde_json` escaping of a whole string body. -/
def escapeStr (s : RStr) : RStr := (s.map escapeByte).flatten

/-- Comma-separated concatenation (byte 44 is a comma). -/
def joinComma (xs : List RStr) : RStr := (xs.intersperse [44]).flatten

mutual

/-- Compact JSON serialization of a `Value`, i.e. `Value::to_string()`:
note that a string value is rendered with surrounding quotes and escapes. -/
def encodeValue : Value → RStr
  | .vNull => [110, 117, 108, 108]
  | .vBool true => [116, 114, 117, 101]
  | .vBool false => [102, 97, 108, 115, 101]
  | .vInt n => intDigits n
  | .vStr s => 34 :: escapeStr s ++ [34]
  | .vArr xs => 91 :: encodeArr xs ++ [93]
  | .vObj fs => 123 :: encodeObj fs ++ [125]

/-- JSON serialization of array elements, comma-separated. -/
def encodeArr : List Value → RStr
  | [] => []
  | [x] => encodeValue x
  | x :: y :: rest => encodeValue x ++ 44 :: encodeArr (y :: rest)

/-- JSON serialization of object fields, comma-separated. -/
def encodeObj : List (RStr × Value) → RStr
  | [] => []
  | [(k, v)] => 34 :: escapeStr k ++ [34, 58] ++ encodeValue v
  | (k, v) :: f :: rest =>
    (34 :: escapeStr k ++ [34, 58] ++ encodeValue v) ++ 44 :: encodeObj (f :: rest)

end

/-! ### Golgi message model (`SsbMessageKVT`)

The `timestamp` field is `f64` in the source; the core only ever uses
`timestamp.round() as i64`, so the model carries the already-rounded
integer value. -/

/-- The value part of a key-value-timestamp message. -/
structure SsbMessageValue : Type where
  content : Value
  sequence : Nat
  timestamp : Int

/-- A key-value-timestamp message as delivered by `createHistoryStream`. -/
structure SsbMessageKVT : Type where
  key : RStr
  value : SsbMessageValue

/-- Bytes of the JSON object key "type". -/
def str_type : RStr := [116, 121, 112, 101]

/-- Bytes of the JSON string "post". -/
def str_post : RStr := [112, 111, 115, 116]

/-- Bytes of the JSON object key "root". -/
def str_root : RStr := [114, 111, 111, 116]

/-- Bytes of the JSON object key "text". -/
def str_text : RStr := [116, 101, 120, 116]

/-- Look up a field of a JSON object (`serde_json::Map::get`). -/
def lookupField (fields : List (RStr × Value)) (k : RStr) : Option Value :=
  lookupKV k fields

/-- `serde_json::Map::contains_key`. -/
def containsKey (fields : List (RStr × Value)) (k : RStr) : Bool :=
  (lookupField fields k).isSome

/-- Modelled from the spec: golgi's `SsbMessageValue::is_message_type(Post)`
(golgi is an external crate, not in the repository sources). Per §4.3 a
message is post-typed exactly when its content object carries a "type"
field whose string value is "post". -/
def is_message_type_post (content : Value) : Bool :=
  match content with
  | .vObj fields =>
    match lookupField fields str_type with
    | some (.vStr s) => s = str_post
    | _ => false
  | _ => false

/-! ### Date rendering (`NaiveDateTime::from_timestamp(ts, 0).format("%d %b %Y")`) -/

/-- Abbreviated month name bytes for month 1..12 ("Jan".."Dec"). -/
def monthAbbrev (m : Nat) : RStr :=
  match m with
  | 1 => [74, 97, 110]
  | 2 => [70, 101, 98]
  | 3 => [77, 97, 114]
  | 4 => [65, 112, 114]
  | 5 => [77, 97, 121]
  | 6 => [74, 117, 110]
  | 7 => [74, 117, 108]
  | 8 => [65, 117, 103]
  | 9 => [83, 101, 112]
  | 10 => [79, 99, 116]
  | 11 => [78, 111, 118]
  | _ => [68, 101, 99]

/-- Proleptic-Gregorian civil date (year, month, day) from days since the
Unix epoch (standard era-based calendar conversion). -/
def civilFromDays (z₀ : Int) : Int × Nat × Nat :=
  let z := z₀ + 719468
  let era := Int.fdiv z 146097
  let doe := (z - era * 146097).toNat
  let yoe := (doe - doe / 1460 + doe / 36524 - doe / 146096) / 365
  let y := (yoe : Int) + era * 400
  let doy := doe - (365 * yoe + yoe / 4 - yoe / 100)
  let mp := (5 * doy + 2) / 153
  let d := doy - (153 * mp + 2) / 5 + 1
  let m := if mp < 10 then mp + 3 else mp - 9
  (if m ≤ 2 then y + 1 else y, m, d)

/-- Zero-pad a decimal rendering to two digits (chrono `%d`). -/
def pad2 (n : Nat) : RStr :=
  if n < 10 then [48, 48 + n] else natDigits n

/-- Year rendering, zero-padded to four digits (chrono `%Y`). -/
def pad4Year (y : Int) : RStr :=
  let digits := natDigits y.natAbs
  let padded := List.replicate (4 - digits.length) 48 ++ digits
  if y < 0 then 45 :: padded else padded

/-- chrono's `%d %b %Y` rendering of a Unix timestamp in seconds. -/
def dateFormat (secs : Int) : RStr :=
  let days := Int.fdiv secs 86400
  let ymd := civilFromDays days
  pad2 ymd.2.2 ++ 32 :: monthAbbrev ymd.2.1 ++ 32 :: pad4Year ymd.1

/-! ### The `Post` and `Peer` records (`db.rs`) -/

/-- The text and metadata of a Scuttlebutt root post (`db.rs`). -/
structure Post : Type where
  key : RStr
  text : RStr
  date : RStr
  sequence : Nat
  read : Bool
  timestamp : Int
  subject : Option RStr
deriving DecidableEq

/-- `Post::new`: a default value of `false` is set for `read`. -/
def Post.new (key : RStr) (text : RStr) (date : RStr) (sequence : Nat)
    (timestamp : Int) (subject : Option RStr) : Post :=
  { key := key, text := text, date := date, sequence := sequence,
    timestamp := timestamp, subject := subject, read := false }

/-- Scuttlebutt peer data. The `latest_sequence` field is modelled from the
spec (§3): the part of `db.rs` that adds it to the `Peer` struct is not
among the provided sources; it is an unsigned 64-bit watermark starting
at 0. -/
structure Peer : Type where
  public_key : RStr
  name : RStr
  latest_sequence : Nat
deriving DecidableEq

/-- `Peer::new`: default values are set for `name` and `latest_sequence`. -/
def Peer.new (public_key : RStr) : Peer :=
  { public_key := public_key, name := [], latest_sequence := 0 }

/-- `Peer::set_name`: modify the name, leaving the other fields unchanged. -/
def Peer.set_name (p : Peer) (name : RStr) : Peer :=
  { p with name := name }

/-- Modelled from the spec: `Peer::set_latest_sequence` (the evolved
`db.rs` defining it is not among the provided sources; per §3 it replaces
the watermark, leaving the other fields unchanged). -/
def Peer.set_latest_sequence (p : Peer) (n : Nat) : Peer :=
  { p with latest_sequence := n }

/-! ### The stream filter (`get_root_posts` in `sbot.rs`) -/

/-- Rust `text.get(0..52)`: `Some` of the first 52 bytes when the string is
at least 52 bytes long and byte index 52 is a character boundary (i.e. is
the end of the string or does not hold a UTF-8 continuation byte), `None`
otherwise. -/
def strGetTo52 (t : RStr) : Option RStr :=
  if 52 ≤ t.length then
    if t.length = 52 then some (t.take 52)
    else if 128 ≤ t.getD 52 0 ∧ t.getD 52 0 < 192 then none
    else some (t.take 52)
  else none

/-- The loop body state of `get_root_posts`: the running watermark and the
accumulated posts, folded over the remaining stream items. -/
def rootPostsGo (latest : Nat) (posts : List Post) :
    List (Except GolgiError SsbMessageKVT) → Nat × List Post
  | [] => (latest, posts)
  | .error _ :: rest => rootPostsGo latest posts rest
  | .ok msg :: rest =>
    if is_message_type_post msg.value.content then
      match msg.value.content with
      | .vObj content_map =>
        if containsKey content_map str_root then rootPostsGo latest posts rest
        else
          let text := match lookupField content_map str_text with
            | some v => encodeValue v
            | none => []
          let timestamp := Int.tdiv msg.value.timestamp 1000
          let date := dateFormat timestamp
          let subject := strGetTo52 text
          rootPostsGo msg.value.sequence
            (posts ++ [Post.new msg.key text date msg.value.sequence timestamp subject])
            rest
      | _ => rootPostsGo latest posts rest
    else rootPostsGo latest posts rest

/-- `get_root_posts`: filter a stream of messages down to root posts,
returning the final watermark and the posts in arrival order. -/
def get_root_posts (stream : List (Except GolgiError SsbMessageKVT)) :
    Nat × List Post :=
  rootPostsGo 0 [] stream

/-! Specification-side restatement of the per-item filter, used to
characterize `get_root_posts` by a single pass with no accumulators. -/

/-- Which stream items the filter includes: well-formed messages whose
content is post-typed and has no "root" field. -/
def isIncluded (item : Except GolgiError SsbMessageKVT) : Option SsbMessageKVT :=
  match item with
  | .error _ => none
  | .ok msg =>
    if is_message_type_post msg.value.content then
      match msg.value.content with
      | .vObj content_map =>
        if containsKey content_map str_root then none else some msg
      | _ => none
    else none

/-- The text the filter derives for an included message: the JSON
serialization of the "text" field's value, or empty when absent. -/
def textOfContent (content : Value) : RStr :=
  match content with
  | .vObj content_map =>
    match lookupField content_map str_text with
    | some v => encodeValue v
    | none => []
  | _ => []

/-- The post record the filter builds for one included message. -/
def mkPost (msg : SsbMessageKVT) : Post :=
  let text := textOfContent msg.value.content
  let timestamp := Int.tdiv msg.value.timestamp 1000
  Post.new msg.key text (dateFormat timestamp) msg.value.sequence timestamp
    (strGetTo52 text)

/-! ### The key-value database (`db.rs`)

The two sled trees hold typed records directly: bincode round-trips are
modelled as the identity (any serialization failure panics in the source
and is not a recoverable outcome). Store reads and single-record writes
are modelled as succeeding; the one failure mode the claims are about —
`apply_batch` returning `Err` — is injected explicitly where it matters. -/

/-- The sled database with its `peers` and `posts` trees. -/
structure Database : Type where
  peer_tree : List (RStr × Peer)
  post_tree : List (RStr × Post)
deriving DecidableEq

/-- The composite post key `format!("{}_{}", public_key, post_key)`
(byte 95 is the underscore separator). -/
def postKey (public_key : RStr) (msg_key : RStr) : RStr :=
  public_key ++ 95 :: msg_key

/-- `Database::add_peer`: upsert the peer record at its public key. -/
def Database.add_peer (db : Database) (peer : Peer) : Database :=
  { db with peer_tree := insertKV peer.public_key peer db.peer_tree }

/-- `Database::get_peer`. -/
def Database.get_peer (db : Database) (public_key : RStr) : Option Peer :=
  lookupKV public_key db.peer_tree

/-- `Database::remove_peer`: remove the peer record from the peer tree. -/
def Database.remove_peer (db : Database) (public_key : RStr) : Database :=
  { db with peer_tree := removeKV public_key db.peer_tree }

/-- `Database::add_post`: upsert one post at its composite key. -/
def Database.add_post (db : Database) (public_key : RStr) (post : Post) : Database :=
  { db with post_tree := insertKV (postKey public_key post.key) post db.post_tree }

/-- `Database::add_post_batch` (success case): apply all the upserts of the
batch to the post tree. -/
def Database.add_post_batch (db : Database) (public_key : RStr)
    (posts : List Post) : Database :=
  { db with post_tree :=
      (posts.foldl (fun t post => insertKV (postKey public_key post.key) post t)
        db.post_tree) }

/-- Modelled from the spec: `Database::get_post` (§4.1; the evolved `db.rs`
defining it is not among the provided sources). Looks up the post stored
under the composite `publicKey_msgId` key (§6). -/
def Database.get_post (db : Database) (public_key : RStr) (msg_id : RStr) :
    Option Post :=
  lookupKV (postKey public_key msg_id) db.post_tree

/-! ### The fetch task (`task_loop.rs`)

`fetch_posts_and_update_db` is parameterized by the stream the gateway
returned for this execution and by whether `add_post_batch` fails
(`sled::Tree::apply_batch` returning `Err`, in which case the batch is not
applied). In the source a batch error is only logged; execution falls
through to the watermark update either way. -/

/-- `fetch_posts_and_update_db`: filter the stream, attempt the batch
upsert, then — whether or not the batch succeeded — update the peer's
`latest_sequence` to the filter's watermark if the peer record exists. -/
def fetch_posts_and_update_db (db : Database) (peer_id : RStr)
    (stream : List (Except GolgiError SsbMessageKVT)) (batchErr : Bool) :
    Database :=
  let res := get_root_posts stream
  let db₁ := if batchErr then db else db.add_post_batch peer_id res.2
  match db₁.get_peer peer_id with
  | some peer => db₁.add_peer (peer.set_latest_sequence res.1)
  | none => db₁

/-- The two post-fetching task variants of the worker loop. -/
inductive FetchPostsTask : Type where
  | fetchAllPosts (peer_id : RStr)
  | fetchLatestPosts (peer_id : RStr)

/-- One worker-loop execution of a post-fetching task, as in the match arms
of `task_loop::spawn`: `FetchAllPosts` always runs the fetch;
`FetchLatestPosts` first reads the peer (to obtain the resume point handed
to the gateway) and is a no-op when the peer no longer exists. The stream
is whatever the gateway returned for the chosen resume point. -/
def run_fetch_task (db : Database) (t : FetchPostsTask)
    (stream : List (Except GolgiError SsbMessageKVT)) (batchErr : Bool) :
    Database :=
  match t with
  | .fetchAllPosts peer_id => fetch_posts_and_update_db db peer_id stream batchErr
  | .fetchLatestPosts peer_id =>
    match db.get_peer peer_id with
    | some _ => fetch_posts_and_update_db db peer_id stream batchErr
    | none => db

/-! ### Read/unread routes (`routes.rs`, part 9) -/

/-- `mark_post_read`: look the post up; if found, reinsert it with
`read = true`; otherwise only log a warning. A redirect is returned in
both cases (no error surfaces). -/
def mark_post_read (db : Database) (public_key : RStr) (msg_id : RStr) :
    Database :=
  match db.get_post public_key msg_id with
  | some post => db.add_post public_key { post with read := true }
  | none => db

/-- `mark_post_unread`: the mirror of `mark_post_read`. -/
def mark_post_unread (db : Database) (public_key : RStr) (msg_id : RStr) :
    Database :=
  match db.get_post public_key msg_id with
  | some post => db.add_post public_key { post with read := false }
  | none => db

/-! ### Public key validation (`utils.rs`) -/

/-- Rust `str::rfind(c)`: byte index of the last occurrence. -/
def rfindByte (b : Nat) : RStr → Option Nat
  | [] => none
  | c :: rest =>
    match rfindByte b rest with
    | some i => some (i + 1)
    | none => if c = b then some 0 else none

/-- Bytes of ".ed25519". -/
def str_dot_ed25519 : RStr := [46, 101, 100, 50, 53, 53, 49, 57]

/-- `validate_public_key`: sigil check, last-dot lookup, ".ed25519" suffix
check, then a length check on the bytes strictly between the sigil and the
last dot. The error values are the source's messages. -/
def validate_public_key (public_key : RStr) : Except String Unit :=
  if public_key.head? ≠ some 64 then
    .error "expected sigil as first character"
  else
    match rfindByte 46 public_key with
    | none => .error "no dot index was found"
    | some dot_index =>
      if ¬ str_dot_ed25519.isSuffixOf public_key then
        .error "hashing algorithm must be ed25519"
      else if ((public_key.drop 1).take (dot_index - 1)).length ≠ 44 then
        .error "base64 data length is incorrect"
      else .ok ()

/-- Is a byte a base64-alphabet character (`A-Z a-z 0-9 + /`)? -/
def isBase64Byte (b : Nat) : Bool :=
  (65 ≤ b ∧ b ≤ 90) ∨ (97 ≤ b ∧ b ≤ 122) ∨ (48 ≤ b ∧ b ≤ 57) ∨ b = 43 ∨ b = 47

/-- Modelled from the spec (§6), for comparison with the source validator:
the public-key grammar — a string starting with `@`, ending with
`.ed25519`, with exactly 44 characters of base64 data between the sigil
and the final dot. -/
def specKeyGrammar (s : RStr) : Prop :=
  ∃ data : RStr, s = 64 :: data ++ str_dot_ed25519 ∧ data.length = 44 ∧
    ∀ b ∈ data, isBase64Byte b

/-! ### The gateway adapter (`sbot.rs`) and its follow policy

Modelled from the spec: the gateway itself is an external RPC service
(§6). Its state is the local identity plus the follow graph; `follow` and
`unfollow` edit the graph, `friends.isFollowing` reports it as the string
"true" or "false". The model is the reachable, well-formed-response
gateway; each adapter call returns its result, the new gateway state and
the list of RPCs it issued. -/

/-- One RPC issued against the gateway. -/
inductive Rpc : Type where
  | whoamiCall : Rpc
  | isFollowingCall (source dest : RStr) : Rpc
  | followCall (public_key : RStr) : Rpc
  | unfollowCall (public_key : RStr) : Rpc
deriving DecidableEq

/-- The gateway's observable state: the local identity and the follow
graph as a list of (source, dest) edges. -/
structure SbotState : Type where
  localKey : RStr
  follows : List (RStr × RStr)
deriving DecidableEq

/-- `whoami`: return the public key of the local sbot instance. -/
def whoami (st : SbotState) : Except String RStr × SbotState × List Rpc :=
  (.ok st.localKey, st, [.whoamiCall])

/-- Bytes of "true". -/
def str_true : RStr := [116, 114, 117, 101]

/-- Bytes of "false". -/
def str_false : RStr := [102, 97, 108, 115, 101]

/-- `is_following`: is peer A following peer B? The gateway answers with
the string "true" or "false". -/
def is_following (st : SbotState) (a b : RStr) :
    Except String RStr × SbotState × List Rpc :=
  (.ok (if (a, b) ∈ st.follows then str_true else str_false), st,
    [.isFollowingCall a b])

/-- `follow_peer`: ask the gateway to follow a peer; the follow graph gains
the edge from the local identity. -/
def follow_peer (st : SbotState) (k : RStr) :
    Except String RStr × SbotState × List Rpc :=
  ({ st with follows :=
      if (st.localKey, k) ∈ st.follows then st.follows
      else st.follows ++ [(st.localKey, k)] } |>
    fun st₂ => (.ok [], st₂, [.followCall k]))

/-- `unfollow_peer`: ask the gateway to unfollow a peer; the edge from the
local identity is removed. -/
def unfollow_peer (st : SbotState) (k : RStr) :
    Except String RStr × SbotState × List Rpc :=
  ({ st with follows := st.follows.filter (fun e => e ≠ (st.localKey, k)) } |>
    fun st₂ => (.ok [], st₂, [.unfollowCall k]))

/-- `follow_if_not_following`: `whoami`, then the status check; follow only
when the status string is "false"; succeed with no action when it is
"true"; any other status outcome is an error. -/
def follow_if_not_following (st : SbotState) (remote_peer : RStr) :
    Except String Unit × SbotState × List Rpc :=
  match whoami st with
  | (.ok w, st₁, log₁) =>
    match is_following st₁ w remote_peer with
    | (.ok status, st₂, log₂) =>
      if status = str_false then
        match follow_peer st₂ remote_peer with
        | (.ok _, st₃, log₃) => (.ok (), st₃, log₁ ++ log₂ ++ log₃)
        | (.error e, st₃, log₃) => (.error e, st₃, log₁ ++ log₂ ++ log₃)
      else if status = str_true then (.ok (), st₂, log₁ ++ log₂)
      else (.error "unrecognised response", st₂, log₁ ++ log₂)
    | (.error _, st₂, log₂) => (.error "unrecognised response", st₂, log₁ ++ log₂)
  | (.error _, st₁, log₁) => (.error "whoami failed", st₁, log₁)

/-- `unfollow_if_following`: `whoami`, then the status check; unfollow only
when the status string is "true". Note the source's catch-all: every other
status — including "false" — is reported as a failed status check. -/
def unfollow_if_following (st : SbotState) (remote_peer : RStr) :
    Except String Unit × SbotState × List Rpc :=
  match whoami st with
  | (.ok w, st₁, log₁) =>
    match is_following st₁ w remote_peer with
    | (.ok status, st₂, log₂) =>
      if status = str_true then
        match unfollow_peer st₂ remote_peer with
        | (.ok _, st₃, log₃) => (.ok (), st₃, log₁ ++ log₂ ++ log₃)
        | (.error e, st₃, log₃) => (.error e, st₃, log₁ ++ log₂ ++ log₃)
      else (.error "unrecognised response", st₂, log₁ ++ log₂)
    | (.error _, st₂, log₂) => (.error "unrecognised response", st₂, log₁ ++ log₂)
  | (.error _, st₁, log₁) => (.error "whoami failed", st₁, log₁)

/-- Count the follow RPCs in a log. -/
def countFollows (log : List Rpc) : Nat :=
  log.countP (fun r => match r with | .followCall _ => true | _ => false)

/-- Count the unfollow RPCs in a log. -/
def countUnfollows (log : List Rpc) : Nat :=
  log.countP (fun r => match r with | .unfollowCall _ => true | _ => false)

/-! ### Concrete fixtures used by counterexamples and witnesses -/

/-- A peer public key "@A" (shortened; key shape is irrelevant to the
store, which treats keys as opaque bytes). -/
def exPeerKey : RStr := [64, 65]

/-- A peer record for `exPeerKey` with watermark 0. -/
def exPeer : Peer := { public_key := exPeerKey, name := [], latest_sequence := 0 }

/-- A database holding only `exPeer` and no posts. -/
def exDb0 : Database := { peer_tree := [(exPeerKey, exPeer)], post_tree := [] }

/-- Post-typed top-level content with text "hi". -/
def exContentHi : Value :=
  .vObj [(str_type, .vStr str_post), (str_text, .vStr [104, 105])]

/-- A root post message "%A" with sequence 5 and text "hi". -/
def exMsg5 : SsbMessageKVT :=
  { key := [37, 65], value := { content := exContentHi, sequence := 5, timestamp := 0 } }

/-- A root post message "%B" with sequence 3 and text "hi". -/
def exMsg3 : SsbMessageKVT :=
  { key := [37, 66], value := { content := exContentHi, sequence := 3, timestamp := 0 } }

/-- A root post message "%C" with sequence 9 and text "hi". -/
def exMsg9 : SsbMessageKVT :=
  { key := [37, 67], value := { content := exContentHi, sequence := 9, timestamp := 0 } }

/-- A stream delivering sequences 5 then 3 (both included by the filter). -/
def exStream53 : List (Except GolgiError SsbMessageKVT) := [.ok exMsg5, .ok exMsg3]

/-- A one-message stream whose post has text "hi". -/
def exStreamHi : List (Except GolgiError SsbMessageKVT) := [.ok exMsg5]

/-- The post stored for message "%A" already marked read. -/
def exPostRead : Post :=
  { key := [37, 65], text := [], date := [], sequence := 1, read := true,
    timestamp := 0, subject := none }

/-- A database holding `exPeer` and the already-read stored post. -/
def exDbRead : Database :=
  { peer_tree := [(exPeerKey, exPeer)],
    post_tree := [(postKey exPeerKey [37, 65], exPostRead)] }

/-- A 53-byte string: '@', then 44 '!' bytes, then ".ed25519"; the middle
is the right length but is not base64 data. -/
def exBangKey : RStr := 64 :: List.replicate 44 33 ++ str_dot_ed25519

/-- The remote peer key "@B". -/
def exRemote : RStr := [64, 66]

/-- A gateway state whose local identity "@A" follows nobody. -/
def exSt0 : SbotState := { localKey := exPeerKey, follows := [] }

/-- A gateway state whose local identity "@A" follows "@B". -/
def exSt1 : SbotState := { localKey := exPeerKey, follows := [(exPeerKey, exRemote)] }

/-- A one-message stream whose post has sequence 9. -/
def exStream9 : List (Except GolgiError SsbMessageKVT) := [.ok exMsg9]

/-- The database after a `FetchAllPosts` execution on `exDb0` whose stream
held one root post with sequence 5. -/
def exDb1 : Database := run_fetch_task exDb0 (.fetchAllPosts exPeerKey) exStreamHi false

/-- The database after a further `FetchLatestPosts` execution whose stream
was empty (the gateway had nothing newer). -/
def exDb2 : Database := run_fetch_task exDb1 (.fetchLatestPosts exPeerKey) [] false

/-! ### Helper lemmas -/

theorem getLast?_getD_cons {α : Type} :
    ∀ (l : List α) (a d : α), ((a :: l).getLast?).getD d = (l.getLast?).getD a
  | [], _, _ => rfl
  | b :: m, a, d => by
    rw [List.getLast?_cons_cons, getLast?_getD_cons m b d, getLast?_getD_cons m b a]

/-- The loop of `get_root_posts`, characterized by a single filter-map pass:
the final watermark is the last included sequence (the accumulator if none)
and the posts are the included messages in order. -/
theorem rootPostsGo_eq (latest : Nat) (posts : List Post)
    (s : List (Except GolgiError SsbMessageKVT)) :
    rootPostsGo latest posts s =
      ((((s.filterMap isIncluded).map (fun m => m.value.sequence)).getLast?).getD latest,
        posts ++ (s.filterMap isIncluded).map mkPost) := by
  induction s generalizing latest posts with
  | nil => simp [rootPostsGo]
  | cons item rest ih =>
    match item with
    | .error e =>
      have h₁ : rootPostsGo latest posts (.error e :: rest) =
          rootPostsGo latest posts rest := rfl
      have h₂ : isIncluded (Except.error e) = none := rfl
      rw [h₁, ih, List.filterMap_cons, h₂]
    | .ok msg =>
      by_cases hpost : is_message_type_post msg.value.content
      · cases hcontent : msg.value.content with
        | vObj content_map =>
          have hpost₂ : is_message_type_post (Value.vObj content_map) = true :=
            hcontent ▸ hpost
          by_cases hroot : containsKey content_map str_root
          · have h₁ : rootPostsGo latest posts (.ok msg :: rest) =
                rootPostsGo latest posts rest := by
              simp [rootPostsGo, hcontent, hpost₂, hroot]
            have h₂ : isIncluded (Except.ok msg) = none := by
              simp [isIncluded, hcontent, hpost₂, hroot]
            rw [h₁, ih, List.filterMap_cons, h₂]
          · have h₁ : rootPostsGo latest posts (.ok msg :: rest) =
                rootPostsGo msg.value.sequence (posts ++ [mkPost msg]) rest := by
              simp [rootPostsGo, hcontent, hpost₂, hroot, mkPost, textOfContent]
            have h₂ : isIncluded (Except.ok msg) = some msg := by
              simp [isIncluded, hcontent, hpost₂, hroot]
            rw [h₁, ih, List.filterMap_cons, h₂]
            simp only [List.map_cons]
            rw [getLast?_getD_cons]
            simp
        | vNull => simp [is_message_type_post, hcontent] at hpost
        | vBool b => simp [is_message_type_post, hcontent] at hpost
        | vInt n => simp [is_message_type_post, hcontent] at hpost
        | vStr t => simp [is_message_type_post, hcontent] at hpost
        | vArr xs => simp [is_message_type_post, hcontent] at hpost
      · have h₁ : rootPostsGo latest posts (.ok msg :: rest) =
            rootPostsGo latest posts rest := by
          simp [rootPostsGo, hpost]
        have h₂ : isIncluded (Except.ok msg) = none := by
          simp [isIncluded, hpost]
        rw [h₁, ih, List.filterMap_cons, h₂]

theorem get_root_posts_fst (s : List (Except GolgiError SsbMessageKVT)) :
    (get_root_posts s).1 =
      ((((s.filterMap isIncluded).map (fun m => m.value.sequence)).getLast?).getD 0) := by
  simp [get_root_posts, rootPostsGo_eq]

theorem get_root_posts_snd (s : List (Except GolgiError SsbMessageKVT)) :
    (get_root_posts s).2 = (s.filterMap isIncluded).map mkPost := by
  simp [get_root_posts, rootPostsGo_eq]

theorem lookupKV_insertKV {α : Type} (k k₂ : RStr) (v : α) (t : List (RStr × α)) :
    lookupKV k₂ (insertKV k v t) = if k = k₂ then some v else lookupKV k₂ t := by
  induction t with
  | nil => simp [insertKV, lookupKV]
  | cons kv rest ih =>
    by_cases hk : kv.1 = k
    · simp only [insertKV, hk, ite_true, lookupKV]
      by_cases hkk : k = k₂
      · simp [hkk]
      · simp [hkk, hk]
    · simp only [insertKV, hk, ite_false, lookupKV, ih]
      by_cases hkv : kv.1 = k₂
      · have hne : ¬ k = k₂ := fun h => hk (h ▸ hkv)
        simp [hkv, hne]
      · simp [hkv]

theorem lookupKV_removeKV {α : Type} (k k₂ : RStr) (t : List (RStr × α)) :
    lookupKV k₂ (removeKV k t) = if k₂ = k then none else lookupKV k₂ t := by
  induction t with
  | nil => simp [removeKV, lookupKV]
  | cons kv rest ih =>
    by_cases hk : kv.1 = k
    · have hfilter : removeKV k (kv :: rest) = removeKV k rest := by
        simp [removeKV, List.filter_cons, hk]
      rw [hfilter, ih]
      by_cases hkk : k₂ = k
      · simp [hkk]
      · have hne : ¬ kv.1 = k₂ := fun h => hkk (by rw [← h, hk])
        simp [hkk, lookupKV, hne]
    · have hfilter : removeKV k (kv :: rest) = kv :: removeKV k rest := by
        simp [removeKV, List.filter_cons, hk]
      rw [hfilter]
      by_cases hkv : kv.1 = k₂
      · have hne : ¬ k₂ = k := fun h => hk (by rw [hkv, h])
        simp [lookupKV, hkv, hne]
      · simp [lookupKV, hkv, ih]

/-- Frame property of the batch upsert: keys not written by the batch keep
their binding. -/
theorem lookupKV_batch_frame (pid kk : RStr) (posts : List Post)
    (t : List (RStr × Post))
    (h : ∀ p ∈ posts, postKey pid p.key ≠ kk) :
    lookupKV kk
      (posts.foldl (fun t₂ post => insertKV (postKey pid post.key) post t₂) t) =
      lookupKV kk t := by
  induction posts generalizing t with
  | nil => rfl
  | cons p rest ih =>
    have hp : postKey pid p.key ≠ kk := h p (by simp)
    rw [List.foldl_cons, ih _ (fun q hq => h q (by simp [hq])), lookupKV_insertKV]
    simp [hp]

/-- `add_post_batch` leaves the peer tree unchanged. -/
theorem add_post_batch_peer_tree (db : Database) (pid : RStr) (posts : List Post) :
    (db.add_post_batch pid posts).peer_tree = db.peer_tree := rfl

/-- `add_peer` leaves the post tree unchanged. -/
theorem add_peer_post_tree (db : Database) (p : Peer) :
    (db.add_peer p).post_tree = db.post_tree := rfl

theorem rfindByte_append (b : Nat) (xs ys : RStr) :
    rfindByte b (xs ++ ys) =
      match rfindByte b ys with
      | some i => some (xs.length + i)
      | none => rfindByte b xs := by
  induction xs with
  | nil =>
    cases hys : rfindByte b ys <;> simp [rfindByte, hys]
  | cons c xs ih =>
    have hstep : rfindByte b (c :: (xs ++ ys)) =
        match rfindByte b (xs ++ ys) with
        | some i => some (i + 1)
        | none => if c = b then some 0 else none := rfl
    rw [List.cons_append, hstep, ih]
    cases hys : rfindByte b ys with
    | some i => simp [List.length_cons]; omega
    | none =>
      cases hxs : rfindByte b xs <;> simp [rfindByte, hxs]

/-- The last dot of ".ed25519" is its leading byte. -/
theorem rfindByte_dot_ed25519 : rfindByte 46 str_dot_ed25519 = some 0 := rfl

/-- **C8** (amended). `validate_public_key` returns `Ok` exactly for the
strings that start with `@`, end with `.ed25519` and have exactly 44
*bytes* between the sigil and the final dot — with no constraint on what
those bytes are: the base64 alphabet is never checked, and multi-byte
characters are counted per byte. -/
theorem lykin_C8_validate (s : RStr) :
    validate_public_key s = .ok () ↔
      ∃ data : RStr, s = 64 :: data ++ str_dot_ed25519 ∧ data.length = 44 := by
  constructor
  · intro h
    rw [validate_public_key] at h
    by_cases h₁ : s.head? = some 64
    case neg =>
      rw [if_pos (by simpa using h₁)] at h
      exact Except.noConfusion h
    case pos =>
      rw [if_neg (by simp [h₁])] at h
      cases hfind : rfindByte 46 s with
      | none => rw [hfind] at h; exact Except.noConfusion h
      | some d =>
        rw [hfind] at h
        replace h :
            (if ¬ str_dot_ed25519.isSuffixOf s then
                (Except.error "hashing algorithm must be ed25519" : Except String Unit)
              else if ((s.drop 1).take (d - 1)).length ≠ 44 then
                Except.error "base64 data length is incorrect"
              else Except.ok ()) = Except.ok () := h
        by_cases h₂ : str_dot_ed25519.isSuffixOf s
        case neg =>
          rw [if_pos (by simpa using h₂)] at h
          exact Except.noConfusion h
        case pos =>
          rw [if_neg (by simp [h₂])] at h
          obtain ⟨pre, hpre⟩ := List.isSuffixOf_iff_suffix.mp h₂
          cases pre with
          | nil =>
            rw [← hpre] at h₁
            exact absurd h₁ (by simp [str_dot_ed25519])
          | cons a pre₂ =>
            have ha : a = 64 := by
              rw [← hpre] at h₁
              simpa using h₁
            subst ha
            have hs : s = 64 :: pre₂ ++ str_dot_ed25519 := hpre.symm
            have hfind₂ : rfindByte 46 s = some (pre₂.length + 1) := by
              rw [hs]
              show rfindByte 46 ((64 :: pre₂) ++ str_dot_ed25519) = _
              rw [rfindByte_append, rfindByte_dot_ed25519]
              simp [Nat.add_comm]
            have hd : d = pre₂.length + 1 := by
              rw [hfind] at hfind₂
              exact (Option.some.injEq _ _).mp hfind₂
            have hslice : (s.drop 1).take (d - 1) = pre₂ := by
              rw [hs, hd]
              show (pre₂ ++ str_dot_ed25519).take (pre₂.length + 1 - 1) = pre₂
              simp
            rw [hslice] at h
            by_cases h₃ : pre₂.length = 44
            · exact ⟨pre₂, hs, h₃⟩
            · rw [if_pos h₃] at h
              exact Except.noConfusion h
  · rintro ⟨data, rfl, hlen⟩
    rw [validate_public_key, if_neg (by simp)]
    have hA : rfindByte 46 (64 :: data ++ str_dot_ed25519) = some (data.length + 1) := by
      show rfindByte 46 ((64 :: data) ++ str_dot_ed25519) = _
      rw [rfindByte_append, rfindByte_dot_ed25519]
      simp [Nat.add_comm]
    rw [hA]
    show (if ¬ str_dot_ed25519.isSuffixOf (64 :: data ++ str_dot_ed25519) then
        (Except.error "hashing algorithm must be ed25519" : Except String Unit)
      else if (((64 :: data ++ str_dot_ed25519).drop 1).take
          (data.length + 1 - 1)).length ≠ 44 then
        Except.error "base64 data length is incorrect"
      else Except.ok ()) = Except.ok ()
    have hB : str_dot_ed25519.isSuffixOf (64 :: data ++ str_dot_ed25519) = true :=
      List.isSuffixOf_iff_suffix.mpr ⟨64 :: data, rfl⟩
    rw [if_neg (not_not_intro hB)]
    have hC : ((64 :: data ++ str_dot_ed25519).drop 1).take (data.length + 1 - 1) = data := by
      show (data ++ str_dot_ed25519).take (data.length + 1 - 1) = data
      simp
    rw [hC, if_neg (by simp [hlen])]

/-- `fetch_posts_and_update_db` characterized on a database whose peer
record for `pid` exists under its own key: the post tree gets the batch
(or stays unchanged when the batch errors) and the peer's watermark
becomes the filter's first component. -/
theorem fetch_posts_spec (db : Database) (pid : RStr)
    (stream : List (Except GolgiError SsbMessageKVT)) (batchErr : Bool)
    (p : Peer) (hp : db.get_peer pid = some p) (hpk : p.public_key = pid) :
    (fetch_posts_and_update_db db pid stream batchErr).get_peer pid =
        some (p.set_latest_sequence (get_root_posts stream).1) ∧
      (fetch_posts_and_update_db db pid stream batchErr).post_tree =
        (if batchErr then db.post_tree
          else (db.add_post_batch pid (get_root_posts stream).2).post_tree) := by
  have hpeer₁ :
      (if batchErr then db else db.add_post_batch pid (get_root_posts stream).2).get_peer pid
        = some p := by
    cases batchErr <;> simpa [Database.get_peer, Database.add_post_batch] using hp
  constructor
  · simp only [fetch_posts_and_update_db, hpeer₁]
    simp [Database.get_peer, Database.add_peer, lookupKV_insertKV,
      Peer.set_latest_sequence, hpk]
  · simp only [fetch_posts_and_update_db, hpeer₁]
    cases batchErr <;> simp [Database.add_peer, Database.add_post_batch]

/-- The post tree after a fetch execution: unchanged when the batch
errored, otherwise exactly the batch applied; the subsequent peer-record
update never touches it. -/
theorem fetch_post_tree (db : Database) (pid : RStr)
    (stream : List (Except GolgiError SsbMessageKVT)) (batchErr : Bool) :
    (fetch_posts_and_update_db db pid stream batchErr).post_tree =
      (if batchErr then db.post_tree
        else (db.add_post_batch pid (get_root_posts stream).2).post_tree) := by
  unfold fetch_posts_and_update_db
  cases hpeer : (if batchErr then db
      else db.add_post_batch pid (get_root_posts stream).2).get_peer pid with
  | some q =>
    cases batchErr <;> simp_all [Database.add_peer]
  | none =>
    cases batchErr <;> simp_all

/-- Byte-level behaviour of `text.get(0..52)`: `None` exactly when the
text is shorter than 52 bytes or byte 52 exists and is a UTF-8
continuation byte; otherwise the first 52 bytes. -/
theorem strGetTo52_spec (t : RStr) :
    (strGetTo52 t = none ↔
      (t.length < 52 ∨ (52 < t.length ∧ 128 ≤ t.getD 52 0 ∧ t.getD 52 0 < 192))) ∧
    (∀ sub, strGetTo52 t = some sub → sub = t.take 52) := by
  unfold strGetTo52
  by_cases h₁ : 52 ≤ t.length
  · rw [if_pos h₁]
    by_cases h₂ : t.length = 52
    · rw [if_pos h₂]
      refine ⟨⟨fun h => absurd h (by simp), fun h => ?_⟩,
        fun sub hsub => ((Option.some.injEq _ _).mp hsub).symm⟩
      exfalso
      rcases h with h | h
      · omega
      · obtain ⟨h, _⟩ := h; omega
    · rw [if_neg h₂]
      by_cases h₃ : 128 ≤ t.getD 52 0 ∧ t.getD 52 0 < 192
      · rw [if_pos h₃]
        refine ⟨⟨fun _ => Or.inr ⟨by omega, h₃.1, h₃.2⟩, fun _ => rfl⟩,
          fun sub hsub => absurd hsub (by simp)⟩
      · rw [if_neg h₃]
        refine ⟨⟨fun h => absurd h (by simp), fun h => ?_⟩,
          fun sub hsub => ((Option.some.injEq _ _).mp hsub).symm⟩
        exfalso
        rcases h with h | h
        · omega
        · exact h₃ ⟨h.2.1, h.2.2⟩
  · rw [if_neg h₁]
    refine ⟨⟨fun _ => Or.inl (by omega), fun _ => rfl⟩,
      fun sub hsub => absurd hsub (by simp)⟩

/-! ### Claim theorems -/

/-- **C1** (amended). After one `FetchAllPosts` or `FetchLatestPosts`
execution on a peer whose record exists, the stored `latestSequence`
equals the sequence of the *last* top-level post message of that
execution's stream (0 if the stream holds none) — not the maximum, and
not necessarily ≥ its previous value. -/
theorem lykin_C1_watermark (db : Database) (pid : RStr)
    (stream : List (Except GolgiError SsbMessageKVT)) (batchErr : Bool)
    (p : Peer) (hp : db.get_peer pid = some p) (hpk : p.public_key = pid) :
    (run_fetch_task db (.fetchAllPosts pid) stream batchErr).get_peer pid =
      some (p.set_latest_sequence
        ((((stream.filterMap isIncluded).map (fun m => m.value.sequence)).getLast?).getD 0)) ∧
    (run_fetch_task db (.fetchLatestPosts pid) stream batchErr).get_peer pid =
      some (p.set_latest_sequence
        ((((stream.filterMap isIncluded).map (fun m => m.value.sequence)).getLast?).getD 0)) := by
  have hfst := (fetch_posts_spec db pid stream batchErr p hp hpk).1
  rw [get_root_posts_fst] at hfst
  constructor
  · exact hfst
  · simp only [run_fetch_task, hp]
    exact hfst

/-- Witness for C1 at a concrete database, peer and stream. -/
theorem lykin_C1_witness :
    (run_fetch_task exDb0 (.fetchAllPosts exPeerKey) exStreamHi false).get_peer exPeerKey =
      some (exPeer.set_latest_sequence 5) :=
  ((lykin_C1_watermark exDb0 exPeerKey exStreamHi false exPeer (by decide) (by decide)).1).trans
    (by decide)

/-- **C1** counterexample: a `FetchAllPosts` ingesting a post of sequence 5
followed by a `FetchLatestPosts` whose stream is empty resets the
watermark from 5 to 0, so `latestSequence` is neither monotone nor the
maximum seen across executions. -/
theorem lykin_C1_counterexample :
    (exDb1.get_peer exPeerKey).map Peer.latest_sequence = some 5 ∧
    (exDb2.get_peer exPeerKey).map Peer.latest_sequence = some 0 := by decide

/-- **C2** (amended). Within one fetch execution, the batch upsert is
attempted before the watermark update, and on success the post tree holds
exactly the batch; but when the batch upsert errors the failure is only
logged: the post tree is unchanged while the peer's `latestSequence` is
still updated to the stream watermark, so progress can be over-reported
relative to the posts durably stored. -/
theorem lykin_C2_batch_error (db : Database) (pid : RStr)
    (stream : List (Except GolgiError SsbMessageKVT)) (p : Peer)
    (hp : db.get_peer pid = some p) (hpk : p.public_key = pid) :
    (fetch_posts_and_update_db db pid stream true).post_tree = db.post_tree ∧
    (fetch_posts_and_update_db db pid stream true).get_peer pid =
      some (p.set_latest_sequence (get_root_posts stream).1) ∧
    (fetch_posts_and_update_db db pid stream false).post_tree =
      (db.add_post_batch pid (get_root_posts stream).2).post_tree := by
  have h₁ := fetch_posts_spec db pid stream true p hp hpk
  have h₂ := fetch_posts_spec db pid stream false p hp hpk
  exact ⟨by simpa using h₁.2, h₁.1, by simpa using h₂.2⟩

/-- Witness for C2 at a concrete database and stream. -/
theorem lykin_C2_witness :
    (fetch_posts_and_update_db exDb0 exPeerKey exStreamHi true).post_tree = [] :=
  (lykin_C2_batch_error exDb0 exPeerKey exStreamHi exPeer (by decide) (by decide)).1

/-- **C2** counterexample: with a failing batch upsert, the fetched post of
sequence 9 is not stored, yet the peer's `latestSequence` is updated to 9 —
the task is not dropped before the watermark update. -/
theorem lykin_C2_counterexample :
    ((fetch_posts_and_update_db exDb0 exPeerKey exStream9 true).get_peer exPeerKey).map
      Peer.latest_sequence = some 9 ∧
    (fetch_posts_and_update_db exDb0 exPeerKey exStream9 true).get_post
      exPeerKey [37, 67] = none := by decide

/-- **C3** (amended). The first component returned by `get_root_posts` is
the sequence of the *last* included top-level post message — 0 when none
is included; errored items, non-post messages and replies never appear in
the filtered list and so never influence it. It equals the maximum only
when the included sequences arrive in non-decreasing order. -/
theorem lykin_C3_watermark (s : List (Except GolgiError SsbMessageKVT)) :
    (get_root_posts s).1 =
      ((((s.filterMap isIncluded).map (fun m => m.value.sequence)).getLast?).getD 0) :=
  get_root_posts_fst s

/-- **C3** counterexample: a stream delivering included sequences 5 then 3
yields watermark 3, not the maximum 5. -/
theorem lykin_C3_counterexample :
    (get_root_posts exStream53).1 = 3 ∧
    (exStream53.filterMap isIncluded).map (fun m => m.value.sequence) = [5, 3] ∧
    (get_root_posts exStream53).1 ≠ 5 := by decide

/-- **C5** (amended). For every post produced by the stream filter, the
subject is `None` exactly when the derived text is shorter than 52 bytes,
or longer with byte index 52 falling inside a UTF-8 character; otherwise
it is `Some` of the first 52 bytes. In particular a nonempty text shorter
than 52 bytes also gets `None`, not `Some` of the text. -/
theorem lykin_C5_subject (s : List (Except GolgiError SsbMessageKVT)) (p : Post)
    (hp : p ∈ (get_root_posts s).2) :
    (p.subject = none ↔
      (p.text.length < 52 ∨
        (52 < p.text.length ∧ 128 ≤ p.text.getD 52 0 ∧ p.text.getD 52 0 < 192))) ∧
    (∀ sub, p.subject = some sub → sub = p.text.take 52) := by
  rw [get_root_posts_snd] at hp
  obtain ⟨m, hm, rfl⟩ := List.mem_map.mp hp
  exact strGetTo52_spec (textOfContent m.value.content)

/-- Witness for C5 at the concrete included post of `exStreamHi`. -/
theorem lykin_C5_witness : (mkPost exMsg5).subject = none :=
  (lykin_C5_subject exStreamHi (mkPost exMsg5) (by decide)).1.mpr (by decide)

/-- **C5** counterexample: a message with (nonempty) text "hi" yields a
post whose derived text is nonempty, yet whose subject is `None` — the
claimed boundary "None iff text empty" is wrong. -/
theorem lykin_C5_counterexample :
    (get_root_posts exStreamHi).2.map Post.subject = [none] ∧
    (get_root_posts exStreamHi).2.map Post.text = [[34, 104, 105, 34]] ∧
    ([34, 104, 105, 34] : RStr) ≠ [] := by decide

/-- **C6** (amended). For every message included by the filter, the
resulting post's text is the JSON *serialization* of the message's "text"
field value — for a string value this includes the surrounding quotes and
escapes — or the empty string when the field is absent; it is not the raw
string content. -/
theorem lykin_C6_text (s : List (Except GolgiError SsbMessageKVT)) :
    ((get_root_posts s).2).map Post.text =
      (s.filterMap isIncluded).map (fun m => textOfContent m.value.content) := by
  rw [get_root_posts_snd, List.map_map]
  rfl

/-- **C6** counterexample: a message whose "text" field holds the raw
string "hi" (bytes 104 105) produces a post whose text is the quoted
serialization (bytes 34 104 105 34), not the raw content. -/
theorem lykin_C6_counterexample :
    lookupField [(str_type, .vStr str_post), (str_text, .vStr [104, 105])] str_text =
      some (.vStr [104, 105]) ∧
    (get_root_posts exStreamHi).2.map Post.text = [[34, 104, 105, 34]] ∧
    ([34, 104, 105, 34] : RStr) ≠ [104, 105] :=
  ⟨rfl, by decide, by decide⟩

/-- **C9** (confirmed). `remove_peer` touches only the peer tree: the post
tree is left byte-for-byte intact, every stored post stays retrievable by
direct key lookup, and of the peer records exactly the removed public
key's entry disappears. -/
theorem lykin_C9_remove_peer (db : Database) (pk pk₂ mid : RStr) :
    (db.remove_peer pk).post_tree = db.post_tree ∧
    (db.remove_peer pk).get_post pk₂ mid = db.get_post pk₂ mid ∧
    (db.remove_peer pk).get_peer pk₂ =
      (if pk₂ = pk then none else db.get_peer pk₂) := by
  refine ⟨rfl, rfl, ?_⟩
  simp [Database.get_peer, Database.remove_peer, lookupKV_removeKV]

/-- **C10** (confirmed). When no post is stored under the requested
`(public_key, msg_id)`, both mark-read and mark-unread leave the database
completely unchanged (and, being total, surface no error — the source
logs a warning and redirects). -/
theorem lykin_C10_missing_post (db : Database) (pk mid : RStr)
    (h : db.get_post pk mid = none) :
    mark_post_read db pk mid = db ∧ mark_post_unread db pk mid = db := by
  constructor <;> simp [mark_post_read, mark_post_unread, h]

/-- Witness for C10 on the empty database. -/
theorem lykin_C10_witness :
    mark_post_read ⟨[], []⟩ exPeerKey [37, 65] = ⟨[], []⟩ ∧
    mark_post_unread ⟨[], []⟩ exPeerKey [37, 65] = ⟨[], []⟩ :=
  lykin_C10_missing_post ⟨[], []⟩ exPeerKey [37, 65] (by decide)

/-- **C8** counterexample: the string `@` + 44 `!` bytes + `.ed25519` is
accepted by `validate_public_key`, yet its middle is not base64 data, so
the validator does not decide exactly the spec's grammar. -/
theorem lykin_C8_counterexample :
    validate_public_key exBangKey = .ok () ∧ ¬ specKeyGrammar exBangKey := by
  constructor
  · rfl
  · rintro ⟨data, heq, hlen, hb64⟩
    have hcons : (64 : Nat) :: List.replicate 44 33 ++ str_dot_ed25519 =
        64 :: data ++ str_dot_ed25519 := by
      rw [← heq]; rfl
    have happ : List.replicate 44 33 ++ str_dot_ed25519 = data ++ str_dot_ed25519 :=
      (List.cons.injEq _ _ _ _).mp hcons |>.2
    have hdata : data = List.replicate 44 33 :=
      (List.append_cancel_right happ).symm
    have hmem : (33 : Nat) ∈ data := by
      rw [hdata]
      exact List.mem_replicate.mpr ⟨by omega, rfl⟩
    exact absurd (hb64 33 hmem) (by decide)

/-- **C7** (amended). Every post the sync path creates has `read = false`
(as `Post::new` sets it), and a fetch execution leaves the read flag of
every stored post untouched *except* those whose composite key collides
with a fetched post: the batch upsert overwrites them whole, resetting
their read flag to `false`. -/
theorem lykin_C7_read_flag (db : Database) (pid : RStr)
    (stream : List (Except GolgiError SsbMessageKVT)) (batchErr : Bool) (kk : RStr)
    (hk : ∀ p ∈ (get_root_posts stream).2, postKey pid p.key ≠ kk) :
    lookupKV kk (fetch_posts_and_update_db db pid stream batchErr).post_tree =
      lookupKV kk db.post_tree ∧
    (∀ p ∈ (get_root_posts stream).2, p.read = false) ∧
    (∀ key text date seq ts subj, (Post.new key text date seq ts subj).read = false) := by
  refine ⟨?_, ?_, fun _ _ _ _ _ _ => rfl⟩
  · rw [fetch_post_tree]
    cases batchErr
    · simpa [Database.add_post_batch] using
        lookupKV_batch_frame pid kk (get_root_posts stream).2 db.post_tree hk
    · rfl
  · rw [get_root_posts_snd]
    intro p hp
    obtain ⟨m, _, rfl⟩ := List.mem_map.mp hp
    rfl

/-- Witness for C7: a stored post at a key the fetch does not write keeps
its binding across the fetch. -/
theorem lykin_C7_witness :
    lookupKV (postKey exPeerKey [37, 66])
        (fetch_posts_and_update_db exDb0 exPeerKey exStreamHi false).post_tree =
      lookupKV (postKey exPeerKey [37, 66]) exDb0.post_tree :=
  (lykin_C7_read_flag exDb0 exPeerKey exStreamHi false (postKey exPeerKey [37, 66])
    (by decide)).1

/-- **C7** counterexample: a stored post marked read is re-fetched (same
message key); the batch upsert overwrites it and its read flag flips back
to `false` — the fetch task does change the read flag of an
already-stored post. -/
theorem lykin_C7_counterexample :
    (exDbRead.get_post exPeerKey [37, 65]).map Post.read = some true ∧
    ((fetch_posts_and_update_db exDbRead exPeerKey exStreamHi false).get_post
      exPeerKey [37, 65]).map Post.read = some false := by decide

/-- **C4** (amended). Against a reachable gateway, calling
`follow_if_not_following` twice in a row on a peer not yet followed issues
exactly one follow RPC, both calls succeed, and the second changes
nothing. Calling `unfollow_if_following` twice on a followed peer issues
exactly one unfollow RPC and the second call changes nothing — but, unlike
the follow mirror, it returns the "failed to determine follow status"
error rather than success, because the source's catch-all treats the
"false" status as unrecognised. -/
theorem lykin_C4_idempotence (st : SbotState) (remote : RStr) :
    ((st.localKey, remote) ∉ st.follows →
      (let r₁ := follow_if_not_following st remote
      let r₂ := follow_if_not_following r₁.2.1 remote
      r₁.1 = .ok () ∧ r₂.1 = .ok () ∧ countFollows (r₁.2.2 ++ r₂.2.2) = 1 ∧
        r₂.2.1 = r₁.2.1)) ∧
    ((st.localKey, remote) ∈ st.follows →
      (let u₁ := unfollow_if_following st remote
      let u₂ := unfollow_if_following u₁.2.1 remote
      u₁.1 = .ok () ∧ countUnfollows (u₁.2.2 ++ u₂.2.2) = 1 ∧ u₂.2.1 = u₁.2.1 ∧
        u₂.1 = .error "unrecognised response")) := by
  have hTF : ¬(str_true = str_false) := by decide
  have hFT : ¬(str_false = str_true) := by decide
  constructor
  · intro h
    have hmem : (st.localKey, remote) ∈ st.follows ++ [(st.localKey, remote)] :=
      List.mem_append_right _ (by simp)
    simp [follow_if_not_following, whoami, is_following, follow_peer, h, hmem,
      hTF, countFollows, List.countP_cons]
  · intro h
    have hnot : (st.localKey, remote) ∉
        st.follows.filter (fun e => e ≠ (st.localKey, remote)) := by
      simp [List.mem_filter]
    simp [unfollow_if_following, whoami, is_following, unfollow_peer, h, hnot,
      hFT, countUnfollows, List.countP_cons]

/-- Witness for C4: both follow-pair halves applied at concrete gateway
states. -/
theorem lykin_C4_witness :
    (follow_if_not_following exSt0 exRemote).1 = .ok () ∧
    (unfollow_if_following exSt1 exRemote).1 = .ok () :=
  ⟨((lykin_C4_idempotence exSt0 exRemote).1 (by decide)).1,
    ((lykin_C4_idempotence exSt1 exRemote).2 (by decide)).1⟩

/-- **C4** counterexample: with the local peer following "@B", the first
`unfollow_if_following` succeeds, but the second returns an error instead
of being a successful no-op — the claimed mirror symmetry fails. -/
theorem lykin_C4_counterexample :
    (unfollow_if_following exSt1 exRemote).1 = .ok () ∧
    (unfollow_if_following (unfollow_if_following exSt1 exRemote).2.1 exRemote).1 =
      .error "unrecognised response" := ⟨rfl, rfl⟩

end Lykin
